import Mathlib

/-!
Shallow embedding of the wasm language-inference tool (src/main.rs).

The program parses wasm binaries into import/export symbol tables and
classifies each module by probable source language through an ordered
chain of heuristic predicates, then aggregates per-category counts.

The external `wasmparser` crate is modelled abstractly: a buffer is
represented by the stream of payload results the decoder yields for it
(each payload, and each entry inside an import/export section, is either
a decoded value or a decode error).  Rust panics arising from `.unwrap()`
on an `Err` are modelled as `Except.error` results that propagate.
-/

namespace WasmInfer

/-- A decode error from the underlying binary-format decoder
(bad magic/version, truncated header, malformed framing, bad entry). -/
structure FormatError where
  message : String
deriving DecidableEq

/-- An import entry: declaring namespace (`module` in wasmparser's field
naming) and local name.  Other fields (the kind tag) are never consulted. -/
structure Import where
  module : String
  name : String
deriving DecidableEq

/-- An export entry: only the name is consulted. -/
structure Export where
  name : String
deriving DecidableEq

/-- The `Language` enum of main.rs (all eight declared variants). -/
inductive Language where
  | Rust
  | Emscripten
  | AssemblyScript
  | Blazor
  | Unknown
  | UnknownCompressedOne
  | UnknownCompressedTwo
  | Go
deriving DecidableEq

/-- `WasmModule`: the two symbol tables collected by `parse_wasm`. -/
structure WasmModule where
  imports : List Import
  exports : List Export
deriving DecidableEq

/-- `WasmModule::any_imports_match`. -/
def WasmModule.any_imports_match (m : WasmModule) (f : Import → Bool) : Bool :=
  m.imports.any f

/-- `WasmModule::any_exports_match`. -/
def WasmModule.any_exports_match (m : WasmModule) (f : Export → Bool) : Bool :=
  m.exports.any f

/-- Rust's `str::contains(&str)`: substring containment, modelled as
"some tail of the haystack starts with the needle". -/
def strContains (hay sub : String) : Bool :=
  hay.toList.tails.any fun t => sub.toList.isPrefixOf t

/-- A payload yielded by the decoder: an import section (a stream of
entry results), an export section, or any other section kind (skipped
by `parse_wasm`). -/
inductive Payload where
  | importSection (entries : List (Except FormatError Import))
  | exportSection (entries : List (Except FormatError Export))
  | other

/-- A buffer, as seen through the decoder: the stream of payload
results `Parser::new(0).parse_all(buf)` yields. -/
abbrev Buf : Type := List (Except FormatError Payload)

/-- The entry loop of `parse_wasm`: each entry is `unwrap`ped in order;
the first `Err` panics (modelled as an error result). -/
def unwrapAll {α : Type} : List (Except FormatError α) → Except FormatError (List α)
  | [] => Except.ok []
  | Except.error e :: _ => Except.error e
  | Except.ok a :: rest => (unwrapAll rest).map (fun as => a :: as)

/-- The payload loop of `parse_wasm` (main.rs lines 36-50), with
the import/export accumulators made explicit.  `payload.unwrap()` on an
`Err` panics, modelled as an error result. -/
def parseGo (imports : List Import) (exports : List Export) :
    List (Except FormatError Payload) → Except FormatError WasmModule
  | [] => Except.ok ⟨imports, exports⟩
  | Except.error e :: _ => Except.error e
  | Except.ok (Payload.importSection entries) :: rest =>
    match unwrapAll entries with
    | Except.error e => Except.error e
    | Except.ok is => parseGo (imports ++ is) exports rest
  | Except.ok (Payload.exportSection entries) :: rest =>
    match unwrapAll entries with
    | Except.error e => Except.error e
    | Except.ok es => parseGo imports (exports ++ es) rest
  | Except.ok Payload.other :: rest => parseGo imports exports rest

/-- `parse_wasm` (main.rs lines 32-53). -/
def parse_wasm (buf : Buf) : Except FormatError WasmModule :=
  parseGo [] [] buf

/-- `is_emscripten` (main.rs lines 55-57). -/
def is_emscripten (m : WasmModule) : Bool :=
  m.any_imports_match fun i => strContains i.name "emscripten"

/-- `is_likely_emscripten` (main.rs lines 59-88). -/
def is_likely_emscripten (m : WasmModule) : Bool :=
  (m.any_imports_match (fun i => i.module == "a" && i.name == "a")
      && m.any_imports_match (fun i => i.module == "a" && i.name == "b"))
    || (m.any_imports_match (fun i => i.module == "env" && i.name == "a")
      && m.any_imports_match (fun i => i.module == "env" && i.name == "b"))
    || m.any_exports_match (fun e => e.name == "malloc")
    || m.any_imports_match (fun i => i.module == "env" && i.name == "__memory_base")

/-- `is_rust` (main.rs lines 90-97). -/
def is_rust (m : WasmModule) : Bool :=
  m.any_imports_match (fun i =>
      strContains i.name "wbindgen"
        || strContains i.name "wbg"
        || i.module == "wbg"
        || i.module == "wbindgen")
    || m.any_exports_match (fun e => strContains e.name "wbindgen")

/-- `is_blazor` (main.rs lines 99-101). -/
def is_blazor (m : WasmModule) : Bool :=
  m.any_imports_match fun i => strContains i.name "mono"

/-- `is_go` (main.rs lines 103-107).  Note: the third disjunct scans
the IMPORTS (`any_imports_match`) for a name containing
`"go_scheduler"`, exactly as the source does. -/
def is_go (m : WasmModule) : Bool :=
  m.any_imports_match (fun i => i.module == "go")
    || m.any_imports_match (fun i => strContains i.name "go")
    || m.any_imports_match (fun e => strContains e.name "go_scheduler")

/-- `is_assemblyscript` (main.rs lines 109-115). -/
def is_assemblyscript (m : WasmModule) : Bool :=
  m.any_imports_match (fun i => i.module == "env" && i.name == "abort")
    || m.any_exports_match (fun e => e.name == "hyphenate")

/-- The classification rule chain of `infer_language` (main.rs lines
120-143), applied to the already-parsed module. -/
def classifyModule (m : WasmModule) : Language :=
  if is_emscripten m then Language.Emscripten
  else if is_blazor m then Language.Blazor
  else if is_rust m then Language.Rust
  else if is_go m then Language.Go
  else if is_assemblyscript m then Language.AssemblyScript
  else if is_likely_emscripten m then Language.Emscripten
  else Language.Unknown

/-- `infer_language` (main.rs lines 117-144): parse, then classify; a
parse panic propagates. -/
def infer_language (buf : Buf) : Except FormatError Language :=
  (parse_wasm buf).map classifyModule

/-- The per-buffer loop of `main` (main.rs lines 151-157): each buffer
is classified and its language pushed; a panic (parse failure) aborts
the whole loop, so the run either yields the full list or dies. -/
def runBatch : List Buf → Except FormatError (List Language)
  | [] => Except.ok []
  | b :: rest =>
    match infer_language b with
    | Except.error e => Except.error e
    | Except.ok l => (runBatch rest).map (fun ls => l :: ls)

/-- The observable per-module output of `main`'s loop: the languages
printed before the run (possibly) aborts, and the panic that aborted
it, if any.  `println!` happens before the next iteration, so the
classifications of buffers preceding the first failure are emitted. -/
def batchOutputs : List Buf → List Language × Option FormatError
  | [] => ([], none)
  | b :: rest =>
    match infer_language b with
    | Except.error e => ([], some e)
    | Except.ok l =>
      let res := batchOutputs rest
      (l :: res.1, res.2)

/-- One step of the counting loop (main.rs lines 160-165):
`counts.entry(val).and_modify(|c| *c += 1).or_insert(1)`, with the
`HashMap` modelled as a partial function `Language → Option Nat`. -/
def updateCount (counts : Language → Option Nat) (val : Language) :
    Language → Option Nat :=
  fun l => if l = val then some ((counts val).getD 0 + 1) else counts l

/-- The count map after the counting loop of `main`. -/
def buildCounts (langs : List Language) : Language → Option Nat :=
  langs.foldl updateCount (fun _ => none)

/-- All eight declared `Language` variants, in declaration order. -/
def allLanguages : List Language :=
  [Language.Rust, Language.Emscripten, Language.AssemblyScript,
   Language.Blazor, Language.Unknown, Language.UnknownCompressedOne,
   Language.UnknownCompressedTwo, Language.Go]

/-- Sum of all per-category counts in the final count map. -/
def sumCounts (langs : List Language) : Nat :=
  (allLanguages.map fun l => (buildCounts langs l).getD 0).sum

/-- The final summary statement of `main` (main.rs lines 168-171):
`counts.get(&Language::Unknown).unwrap()` panics when no `Unknown`
entry exists; otherwise the percentage's two integer operands (the
`Unknown` count and the total) feed the floating-point formatting,
which is outside the embedding. -/
def reportSummary (langs : List Language) : Except Unit (Nat × Nat) :=
  match buildCounts langs Language.Unknown with
  | none => Except.error ()
  | some u => Except.ok (u, langs.length)

/-- The rule chain as an explicit ordered (predicate, category) list,
in the order the source tests them. -/
def ruleChain : List ((WasmModule → Bool) × Language) :=
  [(is_emscripten, Language.Emscripten),
   (is_blazor, Language.Blazor),
   (is_rust, Language.Rust),
   (is_go, Language.Go),
   (is_assemblyscript, Language.AssemblyScript),
   (is_likely_emscripten, Language.Emscripten)]

/-- First-match-wins evaluation of an ordered rule list, falling
through to `Unknown`. -/
def firstMatch (m : WasmModule) : List ((WasmModule → Bool) × Language) → Language
  | [] => Language.Unknown
  | (p, c) :: rest => if p m then c else firstMatch m rest

/-- The secondary-Emscripten predicate as the spec words it (the
four-disjunct fingerprint), stated propositionally for comparison
with the source's `is_likely_emscripten`. -/
def likelySpec (m : WasmModule) : Prop :=
  ((∃ i ∈ m.imports, i.module = "a" ∧ i.name = "a")
      ∧ (∃ i ∈ m.imports, i.module = "a" ∧ i.name = "b"))
    ∨ ((∃ i ∈ m.imports, i.module = "env" ∧ i.name = "a")
      ∧ (∃ i ∈ m.imports, i.module = "env" ∧ i.name = "b"))
    ∨ (∃ e ∈ m.exports, e.name = "malloc")
    ∨ (∃ i ∈ m.imports, i.module = "env" ∧ i.name = "__memory_base")

/-- The Go predicate as the claim words it: namespace exactly `"go"`,
or import local name containing `"go"`, or an EXPORT whose name
contains `"go_scheduler"`. -/
def goSpec (m : WasmModule) : Prop :=
  (∃ i ∈ m.imports, i.module = "go")
    ∨ (∃ i ∈ m.imports, strContains i.name "go" = true)
    ∨ (∃ e ∈ m.exports, strContains e.name "go_scheduler" = true)

/-- Empty module: no imports, no exports. -/
def emptyModule : WasmModule := ⟨[], []⟩

/-- Module with the single import `("x", "y")` and no exports. -/
def xyModule : WasmModule := ⟨[⟨"x", "y"⟩], []⟩

/-- Module whose only signals are the imports `("a","a")` and `("a","b")`. -/
def aabModule : WasmModule := ⟨[⟨"a", "a"⟩, ⟨"a", "b"⟩], []⟩

/-- Module satisfying both the Emscripten-strong predicate and the
Rust `"wbg"`-namespace predicate. -/
def wbgEmModule : WasmModule := ⟨[⟨"wbg", "emscripten_run"⟩], []⟩

/-- Module with no imports and the single export `"go_scheduler"`. -/
def goSchedModule : WasmModule := ⟨[], [⟨"go_scheduler"⟩]⟩

/-- A buffer whose decode succeeds and yields no import/export
sections (classifies as `Unknown`). -/
def goodBuf : Buf := [Except.ok Payload.other]

/-- A buffer on which the decoder reports a format error (truncated /
corrupt). -/
def badBuf : Buf := [Except.error ⟨"truncated"⟩]

/-- A buffer that is not a valid instance of the container format: the
decoder reports an error either for a payload itself (bad magic or
version, truncated header, malformed section framing) or for an entry
inside an import or export section (malformed entry framing) — the two
places the source calls `.unwrap()` on decoder results. -/
def malformedBuf (buf : Buf) : Prop :=
  (∃ x ∈ buf, ∃ e, x = Except.error e)
    ∨ (∃ entries, Except.ok (Payload.importSection entries) ∈ buf
        ∧ ∃ x ∈ entries, ∃ e, x = Except.error e)
    ∨ (∃ entries, Except.ok (Payload.exportSection entries) ∈ buf
        ∧ ∃ x ∈ entries, ∃ e, x = Except.error e)

/-- A buffer whose payloads decode but whose import section holds a
malformed entry (entry-level decode error). -/
def entryBadBuf : Buf :=
  [Except.ok (Payload.importSection [Except.error ⟨"bad entry"⟩])]

end WasmInfer
namespace WasmInfer

/-! ## Helper lemmas -/

/-- Every classification lands in the six categories the rule chain can
return. -/
theorem classifyModule_mem_six (m : WasmModule) :
    classifyModule m = Language.Emscripten ∨ classifyModule m = Language.Blazor ∨
    classifyModule m = Language.Rust ∨ classifyModule m = Language.Go ∨
    classifyModule m = Language.AssemblyScript ∨ classifyModule m = Language.Unknown := by
  unfold classifyModule
  split_ifs <;> simp

/-- A decode error anywhere in the payload stream makes the parse loop
panic (propagate an error), whatever the accumulators hold. -/
theorem parseGo_error_of_mem (buf : List (Except FormatError Payload)) :
    ∀ (imports : List Import) (exports : List Export),
      (∃ x ∈ buf, ∃ e, x = Except.error e) →
      ∃ e, parseGo imports exports buf = Except.error e := by
  induction buf with
  | nil =>
    intro _ _ h
    rcases h with ⟨x, hx, _⟩
    simp at hx
  | cons x rest ih =>
    intro imports exports h
    cases x with
    | error e => exact ⟨e, rfl⟩
    | ok p =>
      have hrest : ∃ y ∈ rest, ∃ e, y = Except.error e := by
        rcases h with ⟨y, hy, e, he⟩
        rcases List.mem_cons.mp hy with h1 | h2
        · rw [h1] at he; cases he
        · exact ⟨y, h2, e, he⟩
      cases p with
      | other => exact ih imports exports hrest
      | importSection entries =>
        cases hu : unwrapAll entries with
        | error e => exact ⟨e, by simp [parseGo, hu]⟩
        | ok is =>
          obtain ⟨e, he⟩ := ih (imports ++ is) exports hrest
          exact ⟨e, by simp [parseGo, hu, he]⟩
      | exportSection entries =>
        cases hu : unwrapAll entries with
        | error e => exact ⟨e, by simp [parseGo, hu]⟩
        | ok es =>
          obtain ⟨e, he⟩ := ih imports (exports ++ es) hrest
          exact ⟨e, by simp [parseGo, hu, he]⟩

/-- An error among the entries of a section makes the entry loop
panic (propagate an error). -/
theorem unwrapAll_error {α : Type} (entries : List (Except FormatError α))
    (h : ∃ x ∈ entries, ∃ e, x = Except.error e) :
    ∃ e, unwrapAll entries = Except.error e := by
  induction entries with
  | nil =>
    rcases h with ⟨x, hx, _⟩
    simp at hx
  | cons x rest ih =>
    cases x with
    | error e => exact ⟨e, rfl⟩
    | ok a =>
      have hrest : ∃ y ∈ rest, ∃ e, y = Except.error e := by
        rcases h with ⟨y, hy, e, he⟩
        rcases List.mem_cons.mp hy with h1 | h2
        · rw [h1] at he; cases he
        · exact ⟨y, h2, e, he⟩
      obtain ⟨e, he⟩ := ih hrest
      exact ⟨e, by simp [unwrapAll, he, Except.map]⟩

/-- A decoder failure anywhere in a malformed buffer — at the payload
level or inside an import/export section's entries — makes the parse
loop panic (propagate an error), whatever the accumulators hold. -/
theorem parseGo_error_of_malformed (buf : List (Except FormatError Payload)) :
    ∀ (imports : List Import) (exports : List Export),
      malformedBuf buf →
      ∃ e, parseGo imports exports buf = Except.error e := by
  induction buf with
  | nil =>
    intro _ _ h
    unfold malformedBuf at h
    rcases h with ⟨x, hx, _⟩ | ⟨entries, hmem, _⟩ | ⟨entries, hmem, _⟩
    · simp at hx
    · simp at hmem
    · simp at hmem
  | cons x rest ih =>
    intro imports exports h
    unfold malformedBuf at h
    cases x with
    | error e => exact ⟨e, rfl⟩
    | ok p =>
      cases p with
      | other =>
        apply ih imports exports
        unfold malformedBuf
        rcases h with ⟨y, hy, e, he⟩ | ⟨entries, hmem, hent⟩ | ⟨entries, hmem, hent⟩
        · rcases List.mem_cons.mp hy with h1 | h2
          · rw [h1] at he; cases he
          · exact Or.inl ⟨y, h2, e, he⟩
        · rcases List.mem_cons.mp hmem with h1 | h2
          · injection h1 with hp; exact Payload.noConfusion hp
          · exact Or.inr (Or.inl ⟨entries, h2, hent⟩)
        · rcases List.mem_cons.mp hmem with h1 | h2
          · injection h1 with hp; exact Payload.noConfusion hp
          · exact Or.inr (Or.inr ⟨entries, h2, hent⟩)
      | importSection entries =>
        cases hu : unwrapAll entries with
        | error e => exact ⟨e, by simp [parseGo, hu]⟩
        | ok is =>
          have hrest : malformedBuf rest := by
            unfold malformedBuf
            rcases h with ⟨y, hy, e, he⟩ | ⟨entries', hmem, hent⟩ | ⟨entries', hmem, hent⟩
            · rcases List.mem_cons.mp hy with h1 | h2
              · rw [h1] at he; cases he
              · exact Or.inl ⟨y, h2, e, he⟩
            · rcases List.mem_cons.mp hmem with h1 | h2
              · injection h1 with hp
                injection hp with hee
                obtain ⟨e, hue⟩ := unwrapAll_error entries (hee ▸ hent)
                rw [hu] at hue
                cases hue
              · exact Or.inr (Or.inl ⟨entries', h2, hent⟩)
            · rcases List.mem_cons.mp hmem with h1 | h2
              · injection h1 with hp; exact Payload.noConfusion hp
              · exact Or.inr (Or.inr ⟨entries', h2, hent⟩)
          obtain ⟨e, he⟩ := ih (imports ++ is) exports hrest
          exact ⟨e, by simp [parseGo, hu, he]⟩
      | exportSection entries =>
        cases hu : unwrapAll entries with
        | error e => exact ⟨e, by simp [parseGo, hu]⟩
        | ok es =>
          have hrest : malformedBuf rest := by
            unfold malformedBuf
            rcases h with ⟨y, hy, e, he⟩ | ⟨entries', hmem, hent⟩ | ⟨entries', hmem, hent⟩
            · rcases List.mem_cons.mp hy with h1 | h2
              · rw [h1] at he; cases he
              · exact Or.inl ⟨y, h2, e, he⟩
            · rcases List.mem_cons.mp hmem with h1 | h2
              · injection h1 with hp; exact Payload.noConfusion hp
              · exact Or.inr (Or.inl ⟨entries', h2, hent⟩)
            · rcases List.mem_cons.mp hmem with h1 | h2
              · injection h1 with hp
                injection hp with hee
                obtain ⟨e, hue⟩ := unwrapAll_error entries (hee ▸ hent)
                rw [hu] at hue
                cases hue
              · exact Or.inr (Or.inr ⟨entries', h2, hent⟩)
          obtain ⟨e, he⟩ := ih imports (exports ++ es) hrest
          exact ⟨e, by simp [parseGo, hu, he]⟩

/-- Unfolding the batch loop on a buffer that classifies. -/
theorem runBatch_cons_ok (x : Buf) (t : List Buf) (l : Language)
    (h : infer_language x = Except.ok l) :
    runBatch (x :: t) = (runBatch t).map (fun ls => l :: ls) := by
  conv_lhs => simp only [runBatch]
  rw [h]

/-- Unfolding the batch loop on a buffer whose parse panics. -/
theorem runBatch_cons_err (x : Buf) (t : List Buf) (e : FormatError)
    (h : infer_language x = Except.error e) :
    runBatch (x :: t) = Except.error e := by
  conv_lhs => simp only [runBatch]
  rw [h]

/-- Unfolding the emitted per-module output on a buffer that classifies. -/
theorem batchOutputs_cons_ok (x : Buf) (t : List Buf) (l : Language)
    (h : infer_language x = Except.ok l) :
    batchOutputs (x :: t) = (l :: (batchOutputs t).1, (batchOutputs t).2) := by
  conv_lhs => simp only [batchOutputs]
  rw [h]

/-- The count map built by the counting loop holds, for each category,
its multiplicity in the classified list (on top of the initial map). -/
theorem foldl_updateCount_getD (langs : List Language) :
    ∀ (m : Language → Option Nat) (l : Language),
      ((langs.foldl updateCount m) l).getD 0 = (m l).getD 0 + langs.count l := by
  induction langs with
  | nil => intro m l; simp
  | cons a t ih =>
    intro m l
    rw [List.foldl_cons, ih]
    by_cases h : l = a
    · subst h
      simp [updateCount, List.count_cons]
      omega
    · simp [updateCount, h, List.count_cons]

/-- A category is absent from the count map iff it was never classified
(and absent initially). -/
theorem foldl_updateCount_eq_none (langs : List Language) :
    ∀ (m : Language → Option Nat) (l : Language),
      (langs.foldl updateCount m) l = none ↔ (m l = none ∧ langs.count l = 0) := by
  induction langs with
  | nil => intro m l; simp
  | cons a t ih =>
    intro m l
    rw [List.foldl_cons, ih]
    by_cases h : l = a
    · subst h
      simp [updateCount, List.count_cons]
    · simp [updateCount, h, List.count_cons]

/-- The final count of a category is its multiplicity in the run. -/
theorem buildCounts_getD (langs : List Language) (l : Language) :
    (buildCounts langs l).getD 0 = langs.count l := by
  unfold buildCounts
  rw [foldl_updateCount_getD]
  simp

/-- A category is missing from the final count map iff no module got it. -/
theorem buildCounts_eq_none (langs : List Language) (l : Language) :
    buildCounts langs l = none ↔ langs.count l = 0 := by
  unfold buildCounts
  rw [foldl_updateCount_eq_none]
  simp

/-- Sums distribute over pointwise addition of mapped functions. -/
theorem sum_map_add (L : List Language) (f g : Language → Nat) :
    (L.map fun l => f l + g l).sum = (L.map f).sum + (L.map g).sum := by
  induction L with
  | nil => simp
  | cons a t ih =>
    simp [ih]
    omega

/-- Each category occurs exactly once in the enumeration of variants. -/
theorem indicator_sum_one (a : Language) :
    (allLanguages.map fun l => if a = l then 1 else 0).sum = 1 := by
  cases a <;> rfl

/-- Category multiplicities over the full enumeration sum to the run size. -/
theorem sum_counts_length (langs : List Language) :
    (allLanguages.map fun l => langs.count l).sum = langs.length := by
  induction langs with
  | nil => rfl
  | cons a t ih =>
    simp only [List.count_cons, beq_iff_eq]
    rw [sum_map_add, ih, indicator_sum_one]
    simp

/-- A batch run that completes classified exactly one module per buffer. -/
theorem runBatch_ok_length (bufs : List Buf) :
    ∀ langs : List Language, runBatch bufs = Except.ok langs →
      langs.length = bufs.length := by
  induction bufs with
  | nil =>
    intro langs h
    simp only [runBatch] at h
    cases h
    rfl
  | cons b rest ih =>
    intro langs h
    cases hb : infer_language b with
    | error e =>
      rw [runBatch_cons_err b rest e hb] at h
      cases h
    | ok l =>
      rw [runBatch_cons_ok b rest l hb] at h
      cases hr : runBatch rest with
      | error e => rw [hr] at h; cases h
      | ok ls =>
        rw [hr] at h
        simp only [Except.map] at h
        cases h
        simp [ih ls hr]

/-- The source predicate `is_likely_emscripten` agrees with the
four-disjunct fingerprint as the spec words it. -/
theorem is_likely_emscripten_iff (m : WasmModule) :
    is_likely_emscripten m = true ↔ likelySpec m := by
  simp only [is_likely_emscripten, likelySpec, WasmModule.any_imports_match,
        WasmModule.any_exports_match, List.any_eq_true, Bool.and_eq_true,
        Bool.or_eq_true, beq_iff_eq]
  rw [or_assoc, or_assoc]

/-! ## Claim theorems -/

/-- Claim C1: classification is the first-match-wins evaluation of the
ordered rule chain Emscripten-strong, Blazor, Rust, Go, AssemblyScript,
Emscripten-secondary, Unknown; in particular a module satisfying both
the Emscripten-strong predicate and the Rust namespace-"wbg" predicate
classifies as Emscripten, not Rust. -/
theorem classify_priority_emscripten_before_rust :
    (∀ m : WasmModule, classifyModule m = firstMatch m ruleChain) ∧
    ∀ m : WasmModule, is_emscripten m = true →
      (m.any_imports_match fun i => i.module == "wbg") = true →
      classifyModule m = Language.Emscripten ∧ classifyModule m ≠ Language.Rust := by
  refine ⟨fun m => rfl, fun m h1 _ => ?_⟩
  constructor
  · simp [classifyModule, h1]
  · simp [classifyModule, h1]

/-- Witness for C1: the module with the single import
`("wbg", "emscripten_run")` satisfies both predicates and classifies
as Emscripten. -/
theorem classify_priority_emscripten_before_rust_witness :
    classifyModule wbgEmModule = Language.Emscripten ∧
    classifyModule wbgEmModule ≠ Language.Rust :=
  classify_priority_emscripten_before_rust.2 wbgEmModule (by decide) (by decide)

/-- Claim C2 (code-bug evidence): the source scans the IMPORTS, not the
exports, for a name containing "go_scheduler" (main.rs line 106 uses
`any_imports_match`), so a module whose only signal is an export named
"go_scheduler" satisfies the Go rule as the spec words it (`goSpec`)
yet `is_go` is false and the module classifies as Unknown. -/
theorem go_rule_scans_imports_not_exports :
    is_go goSchedModule = false ∧
    classifyModule goSchedModule = Language.Unknown ∧
    goSpec goSchedModule := by
  refine ⟨by decide, by decide, ?_⟩
  right; right
  exact ⟨⟨"go_scheduler"⟩, by simp [goSchedModule], by decide⟩

/-- Claim C3: a buffer that is not a valid instance of the container
format — the decoder fails at the payload level (bad magic/version,
truncated header, malformed section framing) or on an entry inside an
import/export section (malformed entry framing) — makes classification
signal the error (the `unwrap` panic, modelled as an exceptional
result, propagates through `infer_language` to the caller); it is
never mapped to any category, in particular not to Unknown. -/
theorem parse_failure_propagates_not_unknown (buf : Buf)
    (h : malformedBuf buf) :
    (∃ e, infer_language buf = Except.error e) ∧
    ∀ l : Language, infer_language buf ≠ Except.ok l := by
  obtain ⟨e, he⟩ := parseGo_error_of_malformed buf [] [] h
  have hmap : infer_language buf = Except.error e := by
    unfold infer_language parse_wasm
    rw [he]
    rfl
  exact ⟨⟨e, hmap⟩, fun l hl => by rw [hmap] at hl; cases hl⟩

/-- Witness for C3 at the concrete buffer `entryBadBuf`, whose only
malformation is an entry decode error inside its import section. -/
theorem parse_failure_propagates_not_unknown_witness :
    malformedBuf entryBadBuf ∧
    ((∃ e, infer_language entryBadBuf = Except.error e) ∧
     ∀ l : Language, infer_language entryBadBuf ≠ Except.ok l) := by
  have hmal : malformedBuf entryBadBuf := by
    unfold malformedBuf entryBadBuf
    exact Or.inr (Or.inl ⟨[Except.error ⟨"bad entry"⟩], by simp,
      Except.error ⟨"bad entry"⟩, by simp, ⟨"bad entry"⟩, rfl⟩)
  exact ⟨hmal, parse_failure_propagates_not_unknown entryBadBuf hmal⟩

/-- Claim C4 counterexample: on a batch of three buffers whose second
is corrupt, the run emits a classification only for buffer 1 and then
aborts (the loop's `unwrap` panic propagates out of `main`), so
buffer 3 is never classified and no totals are produced — the claimed
isolate-and-continue behavior fails on the code. -/
theorem batch_not_isolated_counterexample :
    batchOutputs [goodBuf, badBuf, goodBuf] = ([Language.Unknown], some ⟨"truncated"⟩) ∧
    runBatch [goodBuf, badBuf, goodBuf] = Except.error ⟨"truncated"⟩ :=
  ⟨rfl, rfl⟩

/-- Claim C4 (amended): a parse failure is NOT isolated: the first
failing buffer aborts the whole run; only the buffers before it get
per-module classifications, and the run yields no totals. -/
theorem batch_aborts_on_first_parse_failure (pre : List Buf) (b : Buf) (post : List Buf)
    (hpre : ∀ x ∈ pre, ∃ l, infer_language x = Except.ok l)
    (hb : ∃ e, infer_language b = Except.error e) :
    (∃ e, runBatch (pre ++ b :: post) = Except.error e) ∧
    (batchOutputs (pre ++ b :: post)).1.length = pre.length ∧
    (batchOutputs (pre ++ b :: post)).2.isSome = true := by
  induction pre with
  | nil =>
    obtain ⟨e, he⟩ := hb
    simp only [List.nil_append]
    refine ⟨⟨e, ?_⟩, ?_, ?_⟩ <;> simp [runBatch, batchOutputs, he]
  | cons x rest ih =>
    obtain ⟨l, hl⟩ := hpre x (List.mem_cons_self x rest)
    obtain ⟨⟨e, he⟩, hlen, hsome⟩ := ih (fun y hy => hpre y (List.mem_cons_of_mem x hy))
    refine ⟨⟨e, ?_⟩, ?_, ?_⟩
    · rw [List.cons_append, runBatch_cons_ok _ _ _ hl, he]
      rfl
    · rw [List.cons_append, batchOutputs_cons_ok _ _ _ hl]
      simpa using hlen
    · rw [List.cons_append, batchOutputs_cons_ok _ _ _ hl]
      simpa using hsome

/-- Witness for C4 (amended) on the concrete batch good, bad, good. -/
theorem batch_aborts_on_first_parse_failure_witness :
    (∃ e, runBatch ([goodBuf] ++ badBuf :: [goodBuf]) = Except.error e) ∧
    (batchOutputs ([goodBuf] ++ badBuf :: [goodBuf])).1.length = [goodBuf].length ∧
    (batchOutputs ([goodBuf] ++ badBuf :: [goodBuf])).2.isSome = true :=
  batch_aborts_on_first_parse_failure [goodBuf] badBuf [goodBuf]
    (by
      intro x hx
      simp only [List.mem_singleton] at hx
      subst hx
      exact ⟨Language.Unknown, rfl⟩)
    ⟨⟨"truncated"⟩, rfl⟩

/-- Claim C5 counterexample: with zero classified modules the summary
is not a graceful no-op — the `Unknown` entry is absent from the count
map and the `unwrap` in the percentage line panics (modelled as the
error result), so a failure does occur. -/
theorem summary_zero_modules_counterexample :
    buildCounts [] Language.Unknown = none ∧
    reportSummary ([] : List Language) = Except.error () :=
  ⟨rfl, rfl⟩

/-- Claim C5 (amended): when the number of classified modules is zero,
the unclassified-percentage computation is never completed, but not as
a no-op: the lookup of the missing `Unknown` count panics before any
division is attempted. -/
theorem summary_zero_modules_panics (langs : List Language)
    (h : langs.length = 0) :
    buildCounts langs Language.Unknown = none ∧
    reportSummary langs = Except.error () := by
  rw [List.length_eq_zero] at h
  subst h
  exact ⟨rfl, rfl⟩

/-- Witness for C5 (amended) at the empty run. -/
theorem summary_zero_modules_panics_witness :
    buildCounts ([] : List Language) Language.Unknown = none ∧
    reportSummary ([] : List Language) = Except.error () :=
  summary_zero_modules_panics [] rfl

/-- Claim C6: when the first five rules all fail, classification
returns Emscripten exactly when the secondary fingerprint holds, and
the source's `is_likely_emscripten` agrees with the spec's
four-disjunct wording of that fingerprint. -/
theorem secondary_emscripten_rule_iff (m : WasmModule)
    (h1 : is_emscripten m = false) (h2 : is_blazor m = false)
    (h3 : is_rust m = false) (h4 : is_go m = false)
    (h5 : is_assemblyscript m = false) :
    (classifyModule m = Language.Emscripten ↔ likelySpec m) ∧
    (is_likely_emscripten m = true ↔ likelySpec m) := by
  have hiff := is_likely_emscripten_iff m
  refine ⟨?_, hiff⟩
  cases hl : is_likely_emscripten m with
  | true =>
    simp [classifyModule, h1, h2, h3, h4, h5, hl]
    exact hiff.mp hl
  | false =>
    have hcl : classifyModule m = Language.Unknown := by
      simp [classifyModule, h1, h2, h3, h4, h5, hl]
    rw [hcl]
    constructor
    · intro h
      cases h
    · intro hs
      rw [(hiff.mpr hs : is_likely_emscripten m = true)] at hl
      cases hl

/-- Witness for C6: the module whose only signals are the imports
`("a","a")` and `("a","b")` classifies as Emscripten via the secondary
rule. -/
theorem secondary_emscripten_rule_iff_witness :
    classifyModule aabModule = Language.Emscripten :=
  (secondary_emscripten_rule_iff aabModule (by decide) (by decide) (by decide)
      (by decide) (by decide)).1.mpr
    (Or.inl ⟨⟨⟨"a", "a"⟩, by simp [aabModule], rfl, rfl⟩,
             ⟨⟨"a", "b"⟩, by simp [aabModule], rfl, rfl⟩⟩)

/-- Claim C7: classification is total — every module gets exactly one
category — and both the empty module and the module with the
single import `("x","y")` fall through to Unknown. -/
theorem classify_total_and_unknown_fallback :
    (∀ m : WasmModule, ∃! l : Language, classifyModule m = l) ∧
    classifyModule emptyModule = Language.Unknown ∧
    classifyModule xyModule = Language.Unknown :=
  ⟨fun m => ⟨classifyModule m, rfl, fun _ hy => hy.symm⟩, by decide, by decide⟩

/-- Claim C8: on a run in which every buffer parses successfully, the
per-category counts in the final count map sum to the number of
buffers. -/
theorem run_counts_sum_eq_total (bufs : List Buf) (langs : List Language)
    (h : runBatch bufs = Except.ok langs) :
    sumCounts langs = bufs.length := by
  have h1 : sumCounts langs = langs.length := by
    unfold sumCounts
    have hb : ∀ l, (buildCounts langs l).getD 0 = langs.count l :=
      fun l => buildCounts_getD langs l
    simp only [hb]
    exact sum_counts_length langs
  rw [h1, runBatch_ok_length bufs langs h]

/-- Witness for C8 on the singleton batch that classifies as Unknown. -/
theorem run_counts_sum_eq_total_witness :
    sumCounts [Language.Unknown] = [goodBuf].length :=
  run_counts_sum_eq_total [goodBuf] [Language.Unknown] rfl

/-- Claim C9: the final-summary lookup of the Unknown count succeeds
iff some classified module received Unknown; on a non-empty run with
no Unknown module the `unwrap` takes its panic branch. -/
theorem unknown_count_lookup_characterization (langs : List Language) :
    ((buildCounts langs Language.Unknown).isSome = true ↔ Language.Unknown ∈ langs) ∧
    (langs ≠ [] → Language.Unknown ∉ langs → reportSummary langs = Except.error ()) := by
  constructor
  · rw [Option.isSome_iff_ne_none, ne_eq, buildCounts_eq_none, List.count_eq_zero, not_not]
  · intro _ hnm
    have hz : buildCounts langs Language.Unknown = none :=
      (buildCounts_eq_none langs Language.Unknown).mpr (List.count_eq_zero.mpr hnm)
    simp [reportSummary, hz]

/-- Witness for C9: a run that classified one module as Go panics at
the summary lookup. -/
theorem unknown_count_lookup_characterization_witness :
    reportSummary [Language.Go] = Except.error () :=
  (unknown_count_lookup_characterization [Language.Go]).2 (by simp) (by decide)

/-- Claim C10: a classification that completes yields one of the six
categories Emscripten, Blazor, Rust, Go, AssemblyScript, Unknown; the
declared variants UnknownCompressedOne and UnknownCompressedTwo are
never produced. -/
theorem classification_output_only_six (buf : Buf) (l : Language)
    (h : infer_language buf = Except.ok l) :
    (l = Language.Emscripten ∨ l = Language.Blazor ∨ l = Language.Rust ∨
     l = Language.Go ∨ l = Language.AssemblyScript ∨ l = Language.Unknown) ∧
    l ≠ Language.UnknownCompressedOne ∧ l ≠ Language.UnknownCompressedTwo := by
  unfold infer_language at h
  cases hp : parse_wasm buf with
  | error e => rw [hp] at h; simp [Except.map] at h
  | ok m =>
    rw [hp] at h
    simp only [Except.map] at h
    have hl : l = classifyModule m := by
      cases h; rfl
    subst hl
    refine ⟨classifyModule_mem_six m, ?_, ?_⟩ <;>
      rcases classifyModule_mem_six m with h6 | h6 | h6 | h6 | h6 | h6 <;>
      rw [h6] <;> decide

/-- Witness for C10 at the concrete buffer that classifies as Unknown. -/
theorem classification_output_only_six_witness :
    (Language.Unknown = Language.Emscripten ∨ Language.Unknown = Language.Blazor ∨
     Language.Unknown = Language.Rust ∨ Language.Unknown = Language.Go ∨
     Language.Unknown = Language.AssemblyScript ∨ Language.Unknown = Language.Unknown) ∧
    Language.Unknown ≠ Language.UnknownCompressedOne ∧
    Language.Unknown ≠ Language.UnknownCompressedTwo :=
  classification_output_only_six goodBuf Language.Unknown rfl

end WasmInfer
